import Mathlib

/-!
Verification of the bevy_spine frame-lifecycle pipeline against its
natural-language specification.

The definitions below are a shallow embedding of the Rust source:

* `src/lib.rs` — `spine_load`, `spine_update_animation`,
  `spine_update_meshes`, `empty_mesh`, `adjust_spine_textures`;
* `src/assets.rs` — `SkeletonData`, `SkeletonDataStatus`, `SkeletonDataKind`;
* `src/textures.rs` — `SpineTextures::update` and its pending/live tables.

External-runtime values (parsed skeleton data, atlas pages, renderables
produced by the Spine controller, the asset server's path → handle map, and
the sRGB power curves used by the engine's colour types) are modelled as
opaque tokens or as function parameters of the environment, exactly at the
boundary where the Rust code calls into the external crates.  Floating point
scalars that the code merely copies or adds in exact steps are modelled by
`ℚ`.
-/

namespace BevySpine

/-! ## Asset data model (`src/assets.rs`) -/

/-- Opaque token standing for a `Handle<T>` id. -/
abbrev Handle := Nat

/-- Opaque token standing for an `Arc<rusty_spine::SkeletonData>` value. -/
abbrev SkelDataValue := Nat

/-- An atlas page; only the `pma` bit is read by the code under
verification (`page.pma()` in `spine_load`). -/
structure AtlasPage where
  pma : Bool
deriving DecidableEq, Repr

/-- `Atlas` asset: the external `rusty_spine::Atlas`, of which `spine_load`
only consumes the page list (`atlas.atlas.pages()`). -/
structure Atlas where
  pages : List AtlasPage
deriving DecidableEq, Repr

/-- `SkeletonDataKind` from `src/assets.rs`. -/
inductive SkeletonDataKind where
  | jsonFile (handle : Handle)
  | binaryFile (handle : Handle)
deriving DecidableEq, Repr

/-- `SkeletonDataStatus` from `src/assets.rs`. -/
inductive SkeletonDataStatus where
  | loaded (data : SkelDataValue)
  | loading
  | failed
deriving DecidableEq, Repr

/-- `SkeletonData` composite asset from `src/assets.rs`. -/
structure SkeletonData where
  atlas_handle : Handle
  kind : SkeletonDataKind
  status : SkeletonDataStatus
  premultiplied_alpha : Bool
deriving DecidableEq, Repr

/-- Environment of `spine_load`: the asset registries it reads, and the
external runtime's two parse entry points
(`SkeletonJson::read_skeleton_data`, `SkeletonBinary::read_skeleton_data`,
both called with the atlas; `none` models the `Err` case). -/
structure LoadEnv where
  atlases : Handle → Option Atlas
  jsons : Handle → Option (List Nat)
  binaries : Handle → Option (List Nat)
  read_skeleton_data_json : Atlas → List Nat → Option SkelDataValue
  read_skeleton_data_binary : Atlas → List Nat → Option SkelDataValue

/-! ## Load stage (`spine_load`, `src/lib.rs` lines 515-597)

The body of the `for (_, skeleton_data_asset) in iter_mut()` loop, for one
asset.  `continue` arms return the asset as mutated so far. -/

/-- The `if let Some(page) = atlas.atlas.pages().next()` step of
`spine_load` (lines 547-549): copy the first atlas page's pma bit into the
asset. -/
def update_premultiplied (atlas : Atlas) (a : SkeletonData) : SkeletonData :=
  match atlas.pages.head? with
  | some page => { a with premultiplied_alpha := page.pma }
  | none => a

/-- One iteration of the `spine_load` loading loop over a single
skeleton-data asset. -/
def spine_load_entry (env : LoadEnv) (a : SkeletonData) : SkeletonData :=
  match a.status with
  | .loading =>
    match env.atlases a.atlas_handle with
    | none => a
    | some atlas =>
      let a := update_premultiplied atlas a
      match a.kind with
      | .jsonFile json_handle =>
        match env.jsons json_handle with
        | none => a
        | some json =>
          match env.read_skeleton_data_json atlas json with
          | some skeleton_data => { a with status := .loaded skeleton_data }
          | none => { a with status := .failed }
      | .binaryFile binary_handle =>
        match env.binaries binary_handle with
        | none => a
        | some binary =>
          match env.read_skeleton_data_binary atlas binary with
          | some skeleton_data => { a with status := .loaded skeleton_data }
          | none => { a with status := .failed }
  | _ => a

/-- `spine_load`'s skeleton-data pass: early-out when no asset is Loading,
otherwise run the loading loop over every asset.  (The function also drains
the texture bridge; that drain is `SpineTextures.update` below.) -/
def spine_load (env : LoadEnv) (assets : List SkeletonData) : List SkeletonData :=
  if assets.any (fun a => a.status = .loading) then
    assets.map (spine_load_entry env)
  else
    assets

/-! ## Texture bridge (`src/textures.rs`)

`SpineTexturesData` holds three lists guarded by a mutex: `handles` (the
live (path, image-handle) table), `remember` (pending creates recorded by
the foreign create callback, pushed at the end), and `forget`
(pending-dispose paths recorded by the dispose callback, pushed at the
end).  `SpineTextures::update` drains `remember` and `forget` with
`Vec::pop`, i.e. from the end. -/

/-- `AtlasFilter` from `rusty_spine::atlas`; `unknown` stands for the
variants other than `Nearest`/`Linear` that the `_` match arm of
`convert_filter` catches. -/
inductive AtlasFilter where
  | unknown
  | nearest
  | linear
  | mipmap
  | mipmapNearestNearest
  | mipmapLinearNearest
  | mipmapNearestLinear
  | mipmapLinearLinear
deriving DecidableEq, Repr

/-- `AtlasWrap` from `rusty_spine::atlas`; `unknown` stands for any value
outside the three named modes, caught by the `_` arm of `convert_wrap`. -/
inductive AtlasWrap where
  | mirroredRepeat
  | clampToEdge
  | repeat
  | unknown
deriving DecidableEq, Repr

/-- `SpineTextureConfig` from `src/textures.rs`. -/
structure SpineTextureConfig where
  premultiplied_alpha : Bool
  min_filter : AtlasFilter
  mag_filter : AtlasFilter
  u_wrap : AtlasWrap
  v_wrap : AtlasWrap
deriving DecidableEq, Repr

/-- `SpineTextureInternal` from `src/textures.rs`: one pending-create
record pushed by the foreign create-texture callback. -/
structure SpineTextureInternal where
  path : String
  atlas_address : Nat
  config : SpineTextureConfig
deriving DecidableEq, Repr

/-- `SpineTexturesData` from `src/textures.rs`. -/
structure SpineTexturesData where
  handles : List (String × Handle)
  remember : List SpineTextureInternal
  forget : List String
deriving DecidableEq, Repr

/-- `SpineTextureCreateEvent` from `src/textures.rs`. -/
structure SpineTextureCreateEvent where
  path : String
  handle : Handle
  atlas : Handle
  config : SpineTextureConfig
deriving DecidableEq, Repr

/-- `SpineTextureDisposeEvent` from `src/textures.rs`. -/
structure SpineTextureDisposeEvent where
  path : String
  handle : Handle
deriving DecidableEq, Repr

/-- Environment of `SpineTextures::update`: the asset server's
path → image-handle map (`asset_server.load`) and the atlas registry as a
list of (atlas handle, `c_ptr` address) pairs. -/
structure TexEnv where
  load : String → Handle
  atlases : List (Handle × Nat)

/-- `find_matching_atlas` from `src/textures.rs`: first atlas whose
`c_ptr` address matches. -/
def find_matching_atlas (atlases : List (Handle × Nat)) (atlas_address : Nat) :
    Option Handle :=
  match atlases with
  | [] => none
  | (atlas_handle, addr) :: rest =>
    if addr = atlas_address then some atlas_handle
    else find_matching_atlas rest atlas_address

/-- The `while let Some(texture) = data.remember.pop()` loop of
`SpineTextures::update`, acting on the popped records in pop order (the
argument list is `remember.reverse`).  Returns the updated live table and
the create events in emission order. -/
def drainCreates (env : TexEnv) :
    List SpineTextureInternal → List (String × Handle) →
    List (String × Handle) × List SpineTextureCreateEvent
  | [], handles => (handles, [])
  | texture :: rest, handles =>
    let handle := env.load texture.path
    match find_matching_atlas env.atlases texture.atlas_address with
    | some atlas =>
      let r := drainCreates env rest (handles ++ [(texture.path, handle)])
      (r.1, { path := texture.path, handle := handle, atlas := atlas,
              config := texture.config } :: r.2)
    | none => drainCreates env rest handles

/-- The `while let Some(texture_path) = data.forget.pop()` loop of
`SpineTextures::update`, acting on the popped paths in pop order (the
argument list is `forget.reverse`).  A path with no matching live entry is
dropped; a matching path emits one dispose event carrying the matched
entry's handle and removes that entry. -/
def drainDisposes :
    List (String × Handle) → List String →
    List (String × Handle) × List SpineTextureDisposeEvent
  | handles, [] => (handles, [])
  | handles, texture_path :: rest =>
    match handles.findIdx? (fun i => i.1 = texture_path) with
    | some index =>
      let event : SpineTextureDisposeEvent :=
        { path := texture_path, handle := (handles.get! index).2 }
      let r := drainDisposes (handles.eraseIdx index) rest
      (r.1, event :: r.2)
    | none => drainDisposes handles rest

/-- `SpineTextures::update` from `src/textures.rs`: drain pending creates,
then pending disposes, both by popping from the end of their vectors.
Returns the post-drain state together with the create and dispose events in
emission order. -/
def SpineTextures.update (env : TexEnv) (data : SpineTexturesData) :
    SpineTexturesData × List SpineTextureCreateEvent ×
      List SpineTextureDisposeEvent :=
  let c := drainCreates env data.remember.reverse data.handles
  let d := drainDisposes c.1 data.forget.reverse
  ({ handles := d.1, remember := [], forget := [] }, c.2, d.2)

/-! ## Mesh builder (`spine_update_meshes`, `src/lib.rs` lines 852-1026)

Scalar mesh data (`f32` coordinates, colours) is modelled by `ℚ`: on this
code path the values are only copied verbatim, replicated, or accumulated
in exact `+ 0.001` steps.  Attribute entries (`[f32; 2]`, `[f32; 3]`,
`[f32; 4]`) are modelled as `List ℚ` so that the renderable path (2-float
positions) and `empty_mesh` (3-float positions) share one stream type. -/

/-- `rusty_spine`'s `BlendMode`. -/
inductive BlendMode where
  | normal
  | additive
  | multiply
  | screen
deriving DecidableEq, Repr

/-- A colour with `r`, `g`, `b`, `a` fields (`rusty_spine::Color`). -/
structure Color where
  r : ℚ
  g : ℚ
  b : ℚ
  a : ℚ
deriving DecidableEq, Repr

/-- The engine `Mesh` as touched by this code: an optional `u16` index
buffer and the five vertex attribute streams written by
`spine_update_meshes` / `empty_mesh`. -/
structure Mesh where
  indices : Option (List Nat)
  positions : List (List ℚ)
  normals : List (List ℚ)
  uvs : List (List ℚ)
  colors : List (List ℚ)
  dark_colors : List (List ℚ)
deriving DecidableEq, Repr

/-- `empty_mesh` from `src/lib.rs` lines 1028-1041: remove the index buffer
and set every attribute stream to the empty list. -/
def empty_mesh (_mesh : Mesh) : Mesh :=
  { indices := none, positions := [], normals := [], uvs := [],
    colors := [], dark_colors := [] }

/-- `SkeletonRenderable` from `rusty_spine` (Separated drawer), with the
attachment renderer-object pointer modelled as an optional texture-path
token and `u16` indices as `Nat`. -/
structure SkeletonRenderable where
  slot_index : Nat
  attachment_renderer_object : Option Nat
  vertices : List (List ℚ)
  indices : List Nat
  uvs : List (List ℚ)
  color : Color
  dark_color : Color
  blend_mode : BlendMode
  premultiplied_alpha : Bool
deriving DecidableEq, Repr

/-- `SkeletonCombinedRenderable` from `rusty_spine` (Combined drawer). -/
structure SkeletonCombinedRenderable where
  attachment_renderer_object : Option Nat
  vertices : List (List ℚ)
  indices : List Nat
  uvs : List (List ℚ)
  colors : List (List ℚ)
  dark_colors : List (List ℚ)
  blend_mode : BlendMode
  premultiplied_alpha : Bool
deriving DecidableEq, Repr

/-- `SkeletonRenderableKind` from `src/lib.rs` lines 846-849. -/
inductive SkeletonRenderableKind where
  | simple (renderables : List SkeletonRenderable)
  | combined (renderables : List SkeletonCombinedRenderable)
deriving DecidableEq, Repr

/-- `SpineMaterialInfo`: the render metadata stored in
`SpineMeshState::Renderable` (texture handle modelled as the path token). -/
structure SpineMaterialInfo where
  slot_index : Option Nat
  texture : Nat
  blend_mode : BlendMode
  premultiplied_alpha : Bool
deriving DecidableEq, Repr

/-- `SpineMeshState` from `src/lib.rs`. -/
inductive SpineMeshState where
  | empty
  | renderable (info : SpineMaterialInfo)
deriving DecidableEq, Repr

/-- `SpineDrawer` setting. -/
inductive SpineDrawer where
  | combined
  | separated
  | none
deriving DecidableEq, Repr

/-- `SpineMeshType` setting. -/
inductive SpineMeshType where
  | mesh2D
  | mesh3D
deriving DecidableEq, Repr

/-- One mesh child entity as seen by `spine_update_meshes`: its
`SpineMesh` state, its transform's local `z`, the attached 2D/3D mesh
markers, and the engine mesh asset its handle resolves to (`none` models a
failing `meshes.get_mut`). -/
structure SpineMeshChild where
  mesh : Option Mesh
  state : SpineMeshState
  z : ℚ
  mesh2d : Bool
  mesh3d : Bool
deriving DecidableEq, Repr

/-- The tuple bound by the `match &mut renderables` expression in
`spine_update_meshes` (slot index, renderer object, vertices, indices, uvs,
colors, dark colors, blend mode, premultiplied alpha). -/
structure RenderData where
  slot_index : Option Nat
  attachment_renderer_object : Option Nat
  vertices : List (List ℚ)
  indices : List Nat
  uvs : List (List ℚ)
  colors : List (List ℚ)
  dark_colors : List (List ℚ)
  blend_mode : BlendMode
  premultiplied_alpha : Bool
deriving DecidableEq, Repr

/-- Fetch the renderable at `renderable_index`, mirroring the two arms of
the `match &mut renderables` in `spine_update_meshes`: the Separated arm
broadcasts the renderable's single color and dark color to
`vertices.len()` entries; the Combined arm takes the per-vertex lists. -/
def fetchRenderable (renderables : SkeletonRenderableKind)
    (renderable_index : Nat) : Option RenderData :=
  match renderables with
  | .simple vec =>
    (vec.get? renderable_index).map fun r =>
      { slot_index := some r.slot_index,
        attachment_renderer_object := r.attachment_renderer_object,
        vertices := r.vertices,
        indices := r.indices,
        uvs := r.uvs,
        colors :=
          List.replicate r.vertices.length [r.color.r, r.color.g, r.color.b, r.color.a],
        dark_colors :=
          List.replicate r.vertices.length
            [r.dark_color.r, r.dark_color.g, r.dark_color.b, r.dark_color.a],
        blend_mode := r.blend_mode,
        premultiplied_alpha := r.premultiplied_alpha }
  | .combined vec =>
    (vec.get? renderable_index).map fun r =>
      { slot_index := Option.none,
        attachment_renderer_object := r.attachment_renderer_object,
        vertices := r.vertices,
        indices := r.indices,
        uvs := r.uvs,
        colors := r.colors,
        dark_colors := r.dark_colors,
        blend_mode := r.blend_mode,
        premultiplied_alpha := r.premultiplied_alpha }

/-- The body of the `for child in meshes_children.iter()` loop of
`spine_update_meshes`, for one mesh child: attach/detach the 2D/3D mesh
markers, look up the mesh asset (`continue` on failure, leaving the
renderable cursor and `z` untouched), then either fill all six streams and
set the state Renderable (advancing `z` by 0.001), or set the state Empty
and zero the mesh.  Returns the updated child, renderable cursor and `z`. -/
def update_mesh_child (mesh_type : SpineMeshType)
    (renderables : SkeletonRenderableKind) (renderable_index : Nat) (z : ℚ)
    (child : SpineMeshChild) : SpineMeshChild × Nat × ℚ :=
  let child := { child with
    mesh2d := mesh_type = SpineMeshType.mesh2D,
    mesh3d := mesh_type = SpineMeshType.mesh3D }
  match child.mesh with
  | Option.none => (child, renderable_index, z)
  | some mesh =>
    match fetchRenderable renderables renderable_index with
    | Option.none =>
      ({ child with state := .empty, mesh := some (empty_mesh mesh) },
        renderable_index + 1, z)
    | some r =>
      match r.attachment_renderer_object with
      | Option.none =>
        ({ child with state := .empty, mesh := some (empty_mesh mesh) },
          renderable_index + 1, z)
      | some attachment_render_object =>
        let texture_path := attachment_render_object
        let normals := List.replicate r.vertices.length [0, 0, 0]
        let mesh' : Mesh :=
          { indices := some r.indices,
            positions := r.vertices,
            normals := normals,
            uvs := r.uvs,
            colors := r.colors,
            dark_colors := r.dark_colors }
        ({ child with
            mesh := some mesh',
            state := .renderable
              { slot_index := r.slot_index,
                texture := texture_path,
                blend_mode := r.blend_mode,
                premultiplied_alpha := r.premultiplied_alpha },
            z := z },
          renderable_index + 1, z + 1/1000)

/-- The full child loop of `spine_update_meshes` for one skeleton, starting
from renderable cursor `renderable_index` and layer `z`. -/
def update_mesh_children (mesh_type : SpineMeshType)
    (renderables : SkeletonRenderableKind) :
    List SpineMeshChild → Nat → ℚ → List SpineMeshChild
  | [], _, _ => []
  | child :: rest, renderable_index, z =>
    let r := update_mesh_child mesh_type renderables renderable_index z child
    r.1 :: update_mesh_children mesh_type renderables rest r.2.1 r.2.2

/-- `spine_update_meshes` for one skeleton: select the renderable source
from the drawer setting (`None` skips the skeleton entirely), then walk the
mesh children with `z = 0` and `renderable_index = 0`. -/
def spine_update_meshes (mesh_type : SpineMeshType) (drawer : SpineDrawer)
    (simple_renderables : List SkeletonRenderable)
    (combined_renderables : List SkeletonCombinedRenderable)
    (children : List SpineMeshChild) : List SpineMeshChild :=
  match drawer with
  | .combined =>
    update_mesh_children mesh_type (.combined combined_renderables) children 0 0
  | .separated =>
    update_mesh_children mesh_type (.simple simple_renderables) children 0 0
  | .none => children

/-! ## Animation tick and event bridge
(`spine_spawn` listener, `src/lib.rs` lines 636-696;
`spine_update_animation`, lines 829-844) -/

/-- Opaque token standing for a bevy `Entity` id. -/
abbrev Entity := Nat

/-- `rusty_spine`'s `AnimationEvent` as consumed by the listener closure:
the `track_entry` is modelled by the animation name the listener reads from
it.  Numeric `f32` payloads are modelled by `ℚ` (copied verbatim). -/
inductive AnimationEvent where
  | start (animation : String)
  | interrupt (animation : String)
  | «end» (animation : String)
  | complete (animation : String)
  | dispose
  | event (name : String) (int : Int) (float : ℚ) (string : String)
      (audio_path : String) (volume : ℚ) (balance : ℚ)
deriving DecidableEq, Repr

/-- `SpineEvent` from `src/lib.rs` lines 472-508. -/
inductive SpineEvent where
  | start (entity : Entity) (animation : String)
  | interrupt (entity : Entity) (animation : String)
  | «end» (entity : Entity) (animation : String)
  | complete (entity : Entity) (animation : String)
  | dispose (entity : Entity)
  | event (entity : Entity) (name : String) (int : Int) (float : ℚ)
      (string : String) (audio_path : String) (volume : ℚ) (balance : ℚ)
deriving DecidableEq, Repr

/-- The listener closure installed by `spine_spawn` (lines 639-696): maps
each runtime animation event to the `SpineEvent` pushed onto the queue,
tagged with the skeleton's entity. -/
def spine_listener (spine_entity : Entity) : AnimationEvent → SpineEvent
  | .start animation => .start spine_entity animation
  | .interrupt animation => .interrupt spine_entity animation
  | .«end» animation => .«end» spine_entity animation
  | .complete animation => .complete spine_entity animation
  | .dispose => .dispose spine_entity
  | .event name int float string audio_path volume balance =>
    .event spine_entity name int float string audio_path volume balance

/-- `VecDeque::push_back` on the process-wide event queue (front of the
list is the front of the deque). -/
def push_back (queue : List SpineEvent) (event : SpineEvent) : List SpineEvent :=
  queue ++ [event]

/-- The listener callbacks of one update pass, pushing one `SpineEvent` per
runtime event, in production order. -/
def push_listener_events (spine_entity : Entity) (queue : List SpineEvent)
    (animation_events : List AnimationEvent) : List SpineEvent :=
  animation_events.foldl (fun q e => push_back q (spine_listener spine_entity e)) queue

/-- The `while let Some(event) = events.pop_front()` drain of
`spine_update_animation` (lines 838-843): forward each queued event to the
`EventWriter` (a list in send order) and return (sent events, final queue). -/
def spine_update_animation_drain (queue : List SpineEvent)
    (sent : List SpineEvent) : List SpineEvent × List SpineEvent :=
  match queue with
  | [] => (sent, [])
  | event :: rest => spine_update_animation_drain rest (sent ++ [event])

/-! ## Texture post-processor (`adjust_spine_textures`, `src/lib.rs`
lines 1049-1128)

The engine's sRGB transfer curves call `powf`; the two power curves
(`x ↦ x ^ 2.4` and `x ↦ x ^ (1/2.4)`) are irrational and are taken as
function parameters, applied exactly where the engine colour conversion
applies them.  Both piecewise definitions take their linear branch at 0
independently of the power function. -/

/-- Bevy's `ImageFilterMode` (the variants this code produces). -/
inductive ImageFilterMode where
  | nearest
  | linear
deriving DecidableEq, Repr

/-- Bevy's `ImageAddressMode` (the variants this code produces). -/
inductive ImageAddressMode where
  | clampToEdge
  | «repeat»
  | mirrorRepeat
deriving DecidableEq, Repr

/-- The fields of `ImageSamplerDescriptor` set by `adjust_spine_textures`
(the remaining fields come from `Default::default()` and are elided). -/
structure ImageSamplerDescriptor where
  min_filter : ImageFilterMode
  mag_filter : ImageFilterMode
  address_mode_u : ImageAddressMode
  address_mode_v : ImageAddressMode
deriving DecidableEq, Repr

/-- Bevy's `ImageSampler`. -/
inductive ImageSampler where
  | default
  | descriptor (descriptor : ImageSamplerDescriptor)
deriving DecidableEq, Repr

/-- The engine `Image` as touched by `adjust_spine_textures`: its sampler
and its raw RGBA8 byte data. -/
structure Image where
  sampler : ImageSampler
  data : List Nat
deriving DecidableEq, Repr

/-- `convert_filter` from `adjust_spine_textures` (lines 1063-1072).  The
second component records whether the `_` arm fired (the
`warn!("Unsupported Spine filter")` side effect). -/
def convert_filter (filter : AtlasFilter) : ImageFilterMode × Bool :=
  match filter with
  | .nearest => (.nearest, false)
  | .linear => (.linear, false)
  | _ => (.nearest, true)

/-- `convert_wrap` from `adjust_spine_textures` (lines 1073-1083).  The
second component records whether the `_` arm fired (the
`warn!("Unsupported Spine wrap mode")` side effect). -/
def convert_wrap (wrap : AtlasWrap) : ImageAddressMode × Bool :=
  match wrap with
  | .clampToEdge => (.clampToEdge, false)
  | .mirroredRepeat => (.mirrorRepeat, false)
  | .repeat => (.repeat, false)
  | _ => (.clampToEdge, true)

/-- `u8` colour channel to float, as in `Srgba::rgba_u8`. -/
def u8_to_f (n : Nat) : ℚ := n / 255

/-- Float colour channel back to `u8`: Rust's `(x * 255.) as u8` is a
saturating cast truncating toward zero. -/
def f_to_u8 (x : ℚ) : Nat :=
  let scaled := x * 255
  if scaled < 0 then 0 else min scaled.floor.toNat 255

/-- Bevy's sRGB-to-linear transfer (used by `LinearRgba::from(Srgba)`):
`pow_inv` stands for `x ↦ ((x + 0.055) / 1.055) ^ 2.4` applied to the
pre-offset argument. -/
def nonlinear_to_linear (pow_inv : ℚ → ℚ) (x : ℚ) : ℚ :=
  if x ≤ 4045/100000 then x / (1292/100) else pow_inv x

/-- Bevy's linear-to-sRGB transfer (used by `Srgba::from(LinearRgba)`):
`pow_fwd` stands for `x ↦ 1.055 * x ^ (1/2.4) - 0.055`. -/
def linear_to_nonlinear (pow_fwd : ℚ → ℚ) (x : ℚ) : ℚ :=
  if x ≤ 31308/10000000 then x * (1292/100) else pow_fwd x

/-- The premultiplied-alpha fix-up of one RGBA pixel, `src/lib.rs` lines
1094-1119: un-premultiply by straight alpha in sRGB (zero alpha yields
transparent black), convert to linear, multiply RGB by alpha in linear,
convert back to sRGB, repack to bytes. -/
def convert_pixel (pow_inv pow_fwd : ℚ → ℚ) (r g b a : Nat) :
    Nat × Nat × Nat × Nat :=
  let red := u8_to_f r
  let green := u8_to_f g
  let blue := u8_to_f b
  let alpha := u8_to_f a
  let (red, green, blue, alpha) :=
    if alpha ≠ 0 then (red / alpha, green / alpha, blue / alpha, alpha)
    else ((0 : ℚ), (0 : ℚ), (0 : ℚ), (0 : ℚ))
  let lin_red := nonlinear_to_linear pow_inv red
  let lin_green := nonlinear_to_linear pow_inv green
  let lin_blue := nonlinear_to_linear pow_inv blue
  let lin_red := lin_red * alpha
  let lin_green := lin_green * alpha
  let lin_blue := lin_blue * alpha
  let out_red := linear_to_nonlinear pow_fwd lin_red
  let out_green := linear_to_nonlinear pow_fwd lin_green
  let out_blue := linear_to_nonlinear pow_fwd lin_blue
  (f_to_u8 out_red, f_to_u8 out_green, f_to_u8 out_blue, f_to_u8 alpha)

/-- The `for i in 0..(image.data.len() / 4)` loop of
`adjust_spine_textures`: rewrite each aligned 4-byte RGBA pixel; a trailing
fragment shorter than 4 bytes is left unchanged. -/
def convertImageData (pow_inv pow_fwd : ℚ → ℚ) : List Nat → List Nat
  | r :: g :: b :: a :: rest =>
    let p := convert_pixel pow_inv pow_fwd r g b a
    p.1 :: p.2.1 :: p.2.2.1 :: p.2.2.2 :: convertImageData pow_inv pow_fwd rest
  | rest => rest

/-- The body of `adjust_spine_textures` for one pending (handle, config)
entry whose image asset resolved: install the translated sampler descriptor
and, when the config says premultiplied alpha, rewrite the pixel data. -/
def adjust_spine_texture (pow_inv pow_fwd : ℚ → ℚ)
    (config : SpineTextureConfig) (image : Image) : Image :=
  let sampler := ImageSampler.descriptor
    { min_filter := (convert_filter config.min_filter).1,
      mag_filter := (convert_filter config.mag_filter).1,
      address_mode_u := (convert_wrap config.u_wrap).1,
      address_mode_v := (convert_wrap config.v_wrap).1 }
  let data :=
    if config.premultiplied_alpha then
      convertImageData pow_inv pow_fwd image.data
    else
      image.data
  { sampler := sampler, data := data }

/-! ## Statement-level predicates

Properties the theorems are stated with; they quantify over the embedded
data, they do not model code. -/

/-- Number of renderables produced by the external controller. -/
def SkeletonRenderableKind.size : SkeletonRenderableKind → Nat
  | .simple renderables => renderables.length
  | .combined renderables => renderables.length

/-- Every renderable carries a backing texture (a non-null attachment
renderer object). -/
def RenderablesHaveTexture : SkeletonRenderableKind → Prop
  | .simple renderables =>
    ∀ r ∈ renderables, r.attachment_renderer_object.isSome = true
  | .combined renderables =>
    ∀ r ∈ renderables, r.attachment_renderer_object.isSome = true

/-- Consistency of one Separated-drawer renderable as delivered by the
external runtime: per-vertex UV data and in-range `u16` indices. -/
def SimpleConsistent (r : SkeletonRenderable) : Prop :=
  r.uvs.length = r.vertices.length ∧
  ∀ i ∈ r.indices, i < r.vertices.length ∧ i < 65536

/-- Consistency of one Combined-drawer renderable as delivered by the
external runtime: per-vertex UV, color and dark-color data and in-range
`u16` indices. -/
def CombinedConsistent (r : SkeletonCombinedRenderable) : Prop :=
  r.uvs.length = r.vertices.length ∧
  r.colors.length = r.vertices.length ∧
  r.dark_colors.length = r.vertices.length ∧
  ∀ i ∈ r.indices, i < r.vertices.length ∧ i < 65536

/-- Consistency of the active renderable list. -/
def RenderablesConsistent : SkeletonRenderableKind → Prop
  | .simple renderables => ∀ r ∈ renderables, SimpleConsistent r
  | .combined renderables => ∀ r ∈ renderables, CombinedConsistent r

/-- The six attribute streams of a mesh are mutually consistent: one
zeroed normal per position, one UV/color/dark-color entry per position,
and a present index buffer whose values are in range of the vertex count
and of `u16`. -/
def MeshCoherent (m : Mesh) : Prop :=
  m.normals = List.replicate m.positions.length ([0, 0, 0] : List ℚ) ∧
  m.uvs.length = m.positions.length ∧
  m.colors.length = m.positions.length ∧
  m.dark_colors.length = m.positions.length ∧
  ∃ indices, m.indices = some indices ∧
    ∀ i ∈ indices, i < m.positions.length ∧ i < 65536

/-- Whether a mesh state is Renderable. -/
def SpineMeshState.isRenderable : SpineMeshState → Bool
  | .renderable _ => true
  | .empty => false

/-! ## Concrete witness inputs -/

/-- Concrete load environment used to exercise the load-stage theorems:
atlas 0 exists with a single pma page, json 0 is absent, json 1 parses
successfully, binary lookups are absent. -/
def loadEnvW : LoadEnv :=
  { atlases := fun h => if h = 0 then some ⟨[⟨true⟩]⟩ else none,
    jsons := fun h => if h = 1 then some [3] else none,
    binaries := fun _ => none,
    read_skeleton_data_json := fun _ _ => some 7,
    read_skeleton_data_binary := fun _ _ => none }

/-- Concrete asset list used to exercise the load-stage theorems. -/
def loadAssetsW : List SkeletonData :=
  [{ atlas_handle := 0, kind := .jsonFile 0, status := .loaded 5,
     premultiplied_alpha := false },
   { atlas_handle := 0, kind := .jsonFile 0, status := .loading,
     premultiplied_alpha := false },
   { atlas_handle := 0, kind := .jsonFile 1, status := .loading,
     premultiplied_alpha := false }]

/-- Concrete texture config used to exercise the post-processor theorems. -/
def texConfigW : SpineTextureConfig :=
  { premultiplied_alpha := false, min_filter := .nearest,
    mag_filter := .linear, u_wrap := .clampToEdge, v_wrap := .repeat }

/-- Concrete bridge environment exercising the bridge theorems. -/
def texEnvW : TexEnv :=
  { load := fun path => if path = "b" then 42 else 0,
    atlases := [(3, 100)] }

/-- Concrete bridge state: one live entry, one pending create with a
matching atlas, and two pending disposes of which only one matches. -/
def texDataW : SpineTexturesData :=
  { handles := [("a", 7)],
    remember := [{ path := "b", atlas_address := 100, config := texConfigW }],
    forget := ["a", "z"] }

/-- A concrete non-empty engine mesh. -/
def meshW : Mesh :=
  { indices := some [0], positions := [[1, 2]], normals := [[0, 0, 0]],
    uvs := [[0, 0]], colors := [[1, 1, 1, 1]], dark_colors := [[0, 0, 0, 1]] }

/-- A concrete mesh child whose mesh asset resolves, at layer `z`. -/
def childW (z : ℚ) : SpineMeshChild :=
  { mesh := some meshW, state := .empty, z := z, mesh2d := false,
    mesh3d := false }

/-- A concrete white color. -/
def colorW : Color := { r := 1, g := 1, b := 1, a := 1 }

/-- A Separated-drawer renderable without a backing texture object. -/
def renderableNoTex : SkeletonRenderable :=
  { slot_index := 0, attachment_renderer_object := none,
    vertices := [[0, 0], [1, 0], [0, 1]], indices := [0, 1, 2],
    uvs := [[0, 0], [1, 0], [0, 1]], color := colorW, dark_color := colorW,
    blend_mode := .normal, premultiplied_alpha := false }

/-- A Separated-drawer renderable with a backing texture object. -/
def renderableTex : SkeletonRenderable :=
  { slot_index := 1, attachment_renderer_object := some 9,
    vertices := [[0, 0], [1, 0], [0, 1]], indices := [0, 1, 2],
    uvs := [[0, 0], [1, 0], [0, 1]], color := colorW, dark_color := colorW,
    blend_mode := .normal, premultiplied_alpha := false }

/-! # Theorems -/

/-! ## Load stage lemmas -/

theorem update_premultiplied_status (atlas : Atlas) (a : SkeletonData) :
    (update_premultiplied atlas a).status = a.status := by
  unfold update_premultiplied
  cases atlas.pages.head? <;> rfl

theorem update_premultiplied_kind (atlas : Atlas) (a : SkeletonData) :
    (update_premultiplied atlas a).kind = a.kind := by
  unfold update_premultiplied
  cases atlas.pages.head? <;> rfl

theorem update_premultiplied_pma (atlas : Atlas) (a : SkeletonData)
    (page : AtlasPage) (rest : List AtlasPage) (h : atlas.pages = page :: rest) :
    (update_premultiplied atlas a).premultiplied_alpha = page.pma := by
  unfold update_premultiplied
  rw [h]
  rfl

theorem spine_load_entry_of_loaded (env : LoadEnv) (a : SkeletonData)
    (d : SkelDataValue) (h : a.status = .loaded d) :
    spine_load_entry env a = a := by
  unfold spine_load_entry
  rw [h]

theorem spine_load_entry_of_failed (env : LoadEnv) (a : SkeletonData)
    (h : a.status = .failed) : spine_load_entry env a = a := by
  unfold spine_load_entry
  rw [h]

/-- With status Loading and the atlas absent, the asset is untouched. -/
theorem spine_load_entry_atlas_missing (env : LoadEnv) (a : SkeletonData)
    (hl : a.status = .loading) (ha : env.atlases a.atlas_handle = none) :
    spine_load_entry env a = a := by
  unfold spine_load_entry
  rw [hl, ha]

/-- With status Loading, the atlas present and the referenced skeleton
bytes absent, the status stays Loading. -/
theorem spine_load_entry_bytes_missing (env : LoadEnv) (a : SkeletonData)
    (atlas : Atlas) (hl : a.status = .loading)
    (ha : env.atlases a.atlas_handle = some atlas)
    (hb : (∃ h, a.kind = .jsonFile h ∧ env.jsons h = none) ∨
      (∃ h, a.kind = .binaryFile h ∧ env.binaries h = none)) :
    (spine_load_entry env a).status = .loading := by
  have hb1 : (update_premultiplied atlas a).status = .loading := by
    rw [update_premultiplied_status, hl]
  have hb2 : (update_premultiplied atlas a).kind = a.kind :=
    update_premultiplied_kind atlas a
  rcases hb with ⟨h, hk, hj⟩ | ⟨h, hk, hj⟩ <;>
    simp only [spine_load_entry, hl, ha, hb2, hk, hj, hb1]

/-- With status Loading and both dependencies present, the result status is
Loaded on parse success and Failed on parse error. -/
theorem spine_load_entry_parse (env : LoadEnv) (a : SkeletonData)
    (atlas : Atlas) (hl : a.status = .loading)
    (ha : env.atlases a.atlas_handle = some atlas) :
    (∀ h json, a.kind = .jsonFile h → env.jsons h = some json →
      (spine_load_entry env a).status =
        match env.read_skeleton_data_json atlas json with
        | some d => .loaded d
        | none => .failed) ∧
    (∀ h binary, a.kind = .binaryFile h → env.binaries h = some binary →
      (spine_load_entry env a).status =
        match env.read_skeleton_data_binary atlas binary with
        | some d => .loaded d
        | none => .failed) := by
  have hb2 : (update_premultiplied atlas a).kind = a.kind :=
    update_premultiplied_kind atlas a
  constructor
  · intro h json hk hj
    simp only [spine_load_entry, hl, ha, hb2, hk, hj]
    cases env.read_skeleton_data_json atlas json <;> rfl
  · intro h binary hk hj
    simp only [spine_load_entry, hl, ha, hb2, hk, hj]
    cases env.read_skeleton_data_binary atlas binary <;> rfl

/-- If some indexed asset has status Loading, the early-out test of
`spine_load` passes. -/
theorem spine_load_any_loading (assets : List SkeletonData) (i : Nat)
    (a : SkeletonData) (hget : assets.get? i = some a)
    (hl : a.status = .loading) :
    (assets.any (fun a => a.status = .loading)) = true := by
  rw [List.any_eq_true]
  exact ⟨a, List.get?_mem hget, by simp [hl]⟩

theorem spine_load_get (env : LoadEnv) (assets : List SkeletonData) (i : Nat)
    (a : SkeletonData) (hget : assets.get? i = some a) :
    (spine_load env assets).get? i = some a ∨
      (spine_load env assets).get? i = some (spine_load_entry env a) := by
  unfold spine_load
  by_cases h : (assets.any (fun a => a.status = .loading)) = true
  · right
    rw [if_pos h, List.get?_map, hget]
    rfl
  · left
    rw [if_neg h]
    exact hget

/-- C1: The skeleton-data status is a state machine whose only load-stage
transitions are Loading→Loaded (successful parse) and Loading→Failed
(parse error): an asset that is Loaded or Failed at the start of a
`spine_load` pass is wholly unchanged by it (status and shared value
included); a Loading asset whose atlas or skeleton-bytes asset is absent
remains Loading; and a Loading asset with both dependencies present ends
Loaded exactly on parse success and Failed exactly on parse error. -/
theorem C1_spine_load_status_state_machine (env : LoadEnv)
    (assets : List SkeletonData) (i : Nat) (a : SkeletonData)
    (hget : assets.get? i = some a) :
    ((∃ d, a.status = .loaded d) ∨ a.status = .failed →
      (spine_load env assets).get? i = some a) ∧
    (a.status = .loading →
      (env.atlases a.atlas_handle = none ∨
        (∃ atlas, env.atlases a.atlas_handle = some atlas ∧
          ((∃ h, a.kind = .jsonFile h ∧ env.jsons h = none) ∨
            (∃ h, a.kind = .binaryFile h ∧ env.binaries h = none)))) →
      ∃ a', (spine_load env assets).get? i = some a' ∧
        a'.status = .loading) ∧
    (a.status = .loading →
      ∀ atlas, env.atlases a.atlas_handle = some atlas →
      ((∀ h json, a.kind = .jsonFile h → env.jsons h = some json →
        ∃ a', (spine_load env assets).get? i = some a' ∧
          a'.status =
            match env.read_skeleton_data_json atlas json with
            | some d => .loaded d
            | none => .failed) ∧
       (∀ h binary, a.kind = .binaryFile h → env.binaries h = some binary →
        ∃ a', (spine_load env assets).get? i = some a' ∧
          a'.status =
            match env.read_skeleton_data_binary atlas binary with
            | some d => .loaded d
            | none => .failed))) := by
  have hmap : a.status = .loading →
      (spine_load env assets).get? i = some (spine_load_entry env a) := by
    intro hl
    unfold spine_load
    rw [if_pos (spine_load_any_loading assets i a hget hl), List.get?_map, hget]
    rfl
  refine ⟨?_, ?_, ?_⟩
  · rintro (⟨d, hd⟩ | hf)
    · rcases spine_load_get env assets i a hget with h | h
      · exact h
      · rw [h, spine_load_entry_of_loaded env a d hd]
    · rcases spine_load_get env assets i a hget with h | h
      · exact h
      · rw [h, spine_load_entry_of_failed env a hf]
  · rintro hl (ha | ⟨atlas, ha, hb⟩)
    · exact ⟨a, by rw [hmap hl, spine_load_entry_atlas_missing env a hl ha], hl⟩
    · exact ⟨spine_load_entry env a, hmap hl,
        spine_load_entry_bytes_missing env a atlas hl ha hb⟩
  · intro hl atlas ha
    constructor
    · intro h json hk hj
      exact ⟨spine_load_entry env a, hmap hl,
        (spine_load_entry_parse env a atlas hl ha).1 h json hk hj⟩
    · intro h binary hk hj
      exact ⟨spine_load_entry env a, hmap hl,
        (spine_load_entry_parse env a atlas hl ha).2 h binary hk hj⟩

theorem C1_witness :
    (spine_load loadEnvW loadAssetsW).get? 0 = some
      { atlas_handle := 0, kind := .jsonFile 0, status := .loaded 5,
        premultiplied_alpha := false } ∧
    (∃ a', (spine_load loadEnvW loadAssetsW).get? 1 = some a' ∧
      a'.status = .loading) ∧
    (∃ a', (spine_load loadEnvW loadAssetsW).get? 2 = some a' ∧
      a'.status =
        match loadEnvW.read_skeleton_data_json ⟨[⟨true⟩]⟩ [3] with
        | some d => .loaded d
        | none => .failed) := by
  refine ⟨?_, ?_, ?_⟩
  · exact (C1_spine_load_status_state_machine loadEnvW loadAssetsW 0 _ rfl).1
      (Or.inl ⟨5, rfl⟩)
  · exact (C1_spine_load_status_state_machine loadEnvW loadAssetsW 1 _ rfl).2.1
      rfl (Or.inr ⟨⟨[⟨true⟩]⟩, rfl, Or.inl ⟨0, rfl, rfl⟩⟩)
  · exact ((C1_spine_load_status_state_machine loadEnvW loadAssetsW 2 _ rfl).2.2
      rfl ⟨[⟨true⟩]⟩ rfl).1 1 [3] rfl rfl

/-- C9: During a load pass, a Loading asset whose atlas is present with at
least one page has its public `premultiplied_alpha` field overwritten with
the first page's pma bit, on every path: bytes still missing (status stays
Loading), parse failure (status becomes Failed) and parse success alike. -/
theorem C9_spine_load_premultiplied_alpha (env : LoadEnv)
    (assets : List SkeletonData) (i : Nat) (a : SkeletonData)
    (hget : assets.get? i = some a) (hl : a.status = .loading)
    (atlas : Atlas) (ha : env.atlases a.atlas_handle = some atlas)
    (page : AtlasPage) (rest : List AtlasPage)
    (hpages : atlas.pages = page :: rest) :
    ∃ a', (spine_load env assets).get? i = some a' ∧
      a'.premultiplied_alpha = page.pma := by
  have hmap : (spine_load env assets).get? i = some (spine_load_entry env a) := by
    unfold spine_load
    rw [if_pos (spine_load_any_loading assets i a hget hl), List.get?_map, hget]
    rfl
  refine ⟨spine_load_entry env a, hmap, ?_⟩
  unfold spine_load_entry
  rw [hl, ha]
  have hpma := update_premultiplied_pma atlas a page rest hpages
  cases hk : (update_premultiplied atlas a).kind with
  | jsonFile h =>
    cases hj : env.jsons h with
    | none => simpa [hk, hj] using hpma
    | some json =>
      cases hp : env.read_skeleton_data_json atlas json <;>
        simpa [hk, hj, hp] using hpma
  | binaryFile h =>
    cases hj : env.binaries h with
    | none => simpa [hk, hj] using hpma
    | some binary =>
      cases hp : env.read_skeleton_data_binary atlas binary <;>
        simpa [hk, hj, hp] using hpma

theorem C9_witness :
    ∃ a', (spine_load loadEnvW loadAssetsW).get? 1 = some a' ∧
      a'.premultiplied_alpha = true :=
  C9_spine_load_premultiplied_alpha loadEnvW loadAssetsW 1 _ rfl rfl
    ⟨[⟨true⟩]⟩ rfl ⟨true⟩ [] rfl

/-! ## Animation event queue lemmas -/

/-- Folding the listener's `push_back` over a run of animation events
appends their images, in production order, to the queue. -/
theorem push_listener_events_eq (e : Entity) :
    ∀ (animation_events : List AnimationEvent) (queue : List SpineEvent),
      push_listener_events e queue animation_events =
        queue ++ animation_events.map (spine_listener e)
  | [], queue => by simp [push_listener_events]
  | ae :: rest, queue => by
    have ih := push_listener_events_eq e rest (push_back queue (spine_listener e ae))
    simp only [push_listener_events, List.foldl_cons] at ih ⊢
    rw [ih, push_back, List.map_cons, List.append_assoc, List.singleton_append]

/-- The `pop_front` drain forwards the whole queue, front first, and
leaves the queue empty. -/
theorem spine_update_animation_drain_eq :
    ∀ (queue sent : List SpineEvent),
      spine_update_animation_drain queue sent = (sent ++ queue, [])
  | [], sent => by simp [spine_update_animation_drain]
  | e :: rest, sent => by
    rw [spine_update_animation_drain,
      spine_update_animation_drain_eq rest (sent ++ [e]),
      List.append_assoc, List.singleton_append]

/-- C5: The events pushed by the controller listener callbacks during the
update pass are forwarded to the engine event bus in exactly the FIFO
order of their production (`push_back` by the producer, `pop_front` by the
consumer), and the queue is empty when the stage finishes. -/
theorem C5_animation_events_fifo (spine_entity : Entity)
    (queue : List SpineEvent) (animation_events : List AnimationEvent) :
    spine_update_animation_drain
        (push_listener_events spine_entity queue animation_events) [] =
      (queue ++ animation_events.map (spine_listener spine_entity), []) := by
  rw [push_listener_events_eq, spine_update_animation_drain_eq,
    List.nil_append]

/-! ## Texture post-processor lemmas -/

/-- C6: The sampler translation is total with safe defaults: filter
Nearest maps to Nearest, Linear to Linear, and every other filter value to
Nearest with a warning; wrap ClampToEdge maps to ClampToEdge,
MirroredRepeat to MirrorRepeat, Repeat to Repeat, and every other wrap
value to ClampToEdge with a warning; and the translated sampler descriptor
is installed on the image. -/
theorem C6_sampler_translation_safe_defaults :
    (convert_filter .nearest = (.nearest, false) ∧
      convert_filter .linear = (.linear, false) ∧
      ∀ filter, filter ≠ .nearest → filter ≠ .linear →
        convert_filter filter = (.nearest, true)) ∧
    (convert_wrap .clampToEdge = (.clampToEdge, false) ∧
      convert_wrap .mirroredRepeat = (.mirrorRepeat, false) ∧
      convert_wrap .repeat = (.repeat, false) ∧
      ∀ wrap, wrap ≠ .clampToEdge → wrap ≠ .mirroredRepeat → wrap ≠ .repeat →
        convert_wrap wrap = (.clampToEdge, true)) ∧
    (∀ (pow_inv pow_fwd : ℚ → ℚ) (config : SpineTextureConfig) (image : Image),
      (adjust_spine_texture pow_inv pow_fwd config image).sampler =
        .descriptor
          { min_filter := (convert_filter config.min_filter).1,
            mag_filter := (convert_filter config.mag_filter).1,
            address_mode_u := (convert_wrap config.u_wrap).1,
            address_mode_v := (convert_wrap config.v_wrap).1 }) := by
  refine ⟨⟨rfl, rfl, ?_⟩, ⟨rfl, rfl, rfl, ?_⟩, fun _ _ _ _ => rfl⟩
  · intro filter h1 h2
    cases filter <;> first
      | rfl
      | exact absurd rfl h1
      | exact absurd rfl h2
  · intro wrap h1 h2 h3
    cases wrap <;> first
      | rfl
      | exact absurd rfl h1
      | exact absurd rfl h2
      | exact absurd rfl h3

theorem C6_witness :
    convert_filter .mipmap = (.nearest, true) ∧
    convert_wrap .unknown = (.clampToEdge, true) ∧
    (adjust_spine_texture id id texConfigW
        { sampler := .default, data := [] }).sampler =
      .descriptor
        { min_filter := .nearest, mag_filter := .linear,
          address_mode_u := .clampToEdge, address_mode_v := .repeat } :=
  ⟨C6_sampler_translation_safe_defaults.1.2.2 .mipmap (by decide) (by decide),
   C6_sampler_translation_safe_defaults.2.1.2.2.2 .unknown (by decide)
     (by decide) (by decide),
   (C6_sampler_translation_safe_defaults.2.2 id id texConfigW
     { sampler := .default, data := [] }).trans rfl⟩

/-- The per-pixel fix-up maps a zero-alpha pixel to transparent black,
whatever power curves the colour conversion uses: the zero-alpha branch
sets the colour to (0,0,0,0) and both piecewise transfer curves take their
linear branch at 0. -/
theorem convert_pixel_zero_alpha (pow_inv pow_fwd : ℚ → ℚ) (r g b : Nat) :
    convert_pixel pow_inv pow_fwd r g b 0 = (0, 0, 0, 0) := by
  norm_num [convert_pixel, u8_to_f, nonlinear_to_linear, linear_to_nonlinear,
    f_to_u8]
  decide

/-- `convertImageData` distributes over an append at a 4-byte-aligned
boundary. -/
theorem convertImageData_append (pow_inv pow_fwd : ℚ → ℚ) :
    ∀ (pre rest : List Nat), pre.length % 4 = 0 →
      convertImageData pow_inv pow_fwd (pre ++ rest) =
        convertImageData pow_inv pow_fwd pre ++
          convertImageData pow_inv pow_fwd rest
  | [], _, _ => by simp [convertImageData]
  | [_], _, h => by norm_num at h
  | [_, _], _, h => by norm_num at h
  | [_, _, _], _, h => by norm_num at h
  | a :: b :: c :: d :: pre, rest, h => by
    have h4 : pre.length % 4 = 0 := by
      simp only [List.length_cons] at h
      omega
    simp only [List.cons_append, convertImageData, List.append_eq]
    rw [convertImageData_append pow_inv pow_fwd pre rest h4]

/-- C8: In the premultiplied-alpha conversion, every 4-byte RGBA pixel
whose alpha byte is 0 is rewritten to (0, 0, 0, 0) regardless of its RGB
bytes: pointwise, and inside the image byte stream at any aligned pixel. -/
theorem C8_zero_alpha_pixel_black (pow_inv pow_fwd : ℚ → ℚ)
    (pre : List Nat) (r g b : Nat) (post : List Nat)
    (h : pre.length % 4 = 0) :
    convert_pixel pow_inv pow_fwd r g b 0 = (0, 0, 0, 0) ∧
    convertImageData pow_inv pow_fwd (pre ++ r :: g :: b :: 0 :: post) =
      convertImageData pow_inv pow_fwd pre ++
        0 :: 0 :: 0 :: 0 :: convertImageData pow_inv pow_fwd post := by
  refine ⟨convert_pixel_zero_alpha pow_inv pow_fwd r g b, ?_⟩
  rw [convertImageData_append pow_inv pow_fwd pre _ h]
  simp only [convertImageData, convert_pixel_zero_alpha]

theorem C8_witness :
    convert_pixel id id 7 8 9 0 = (0, 0, 0, 0) ∧
    convertImageData id id [7, 8, 9, 0] = [0, 0, 0, 0] := by
  have h := C8_zero_alpha_pixel_black id id [] 7 8 9 [] rfl
  exact ⟨h.1, by simpa [convertImageData] using h.2⟩

/-! ## Texture bridge lemmas -/

/-- Characterization of the `position` / index / `remove` pattern of the
dispose drain: a successful `findIdx?` names a matching live entry, and
removing it decreases each per-predicate count by exactly that entry's
contribution. -/
theorem findIdx_entry_spec (path : String) :
    ∀ (handles : List (String × Handle)) (index : Nat),
      handles.findIdx? (fun i => i.1 = path) = some index →
      ∃ entry, handles.get! index = entry ∧ entry.1 = path ∧
        entry ∈ handles ∧
        List.Sublist (handles.eraseIdx index) handles ∧
        ∀ (q : String × Handle → Bool),
          List.countP q (handles.eraseIdx index) +
              (if q entry then 1 else 0) =
            List.countP q handles := by
  intro handles
  induction handles with
  | nil => intro index h; simp [List.findIdx?] at h
  | cons e t ih =>
    intro index h
    rw [List.findIdx?_cons] at h
    by_cases hp : e.1 = path
    · rw [if_pos (by simp [hp])] at h
      injection h with h
      subst h
      refine ⟨e, rfl, hp, List.mem_cons_self e t, ?_, ?_⟩
      · exact List.sublist_cons_self e t
      · intro q
        simp only [List.eraseIdx_zero, List.countP_cons, List.tail_cons]
    · rw [if_neg (by simp [hp]), List.findIdx?_succ] at h
      rcases Option.map_eq_some'.mp h with ⟨j, hj, rfl⟩
      obtain ⟨entry, hget, hpath, hmem, hsub, hcount⟩ := ih j hj
      refine ⟨entry, hget, hpath, List.mem_cons_of_mem e hmem, ?_, ?_⟩
      · exact List.Sublist.cons₂ e hsub
      · intro q
        have hc := hcount q
        show List.countP q (e :: t.eraseIdx j) + _ = _
        simp only [List.countP_cons]
        omega

/-- Joint invariants of the dispose drain: every dispose event's
(path, handle) pair is an entry of the input live table; the emitted paths
are an in-order subsequence of the drained pending-dispose paths; and for
every entry predicate, the count in the output table plus the number of
matching dispose events equals the count in the input table. -/
theorem drainDisposes_spec :
    ∀ (forget : List String) (handles : List (String × Handle)),
      (∀ ev ∈ (drainDisposes handles forget).2,
        (ev.path, ev.handle) ∈ handles) ∧
      List.Sublist
        ((drainDisposes handles forget).2.map SpineTextureDisposeEvent.path)
        forget ∧
      ∀ (q : String × Handle → Bool),
        List.countP q (drainDisposes handles forget).1 +
            ((drainDisposes handles forget).2.filter
              (fun ev => q (ev.path, ev.handle))).length =
          List.countP q handles := by
  intro forget
  induction forget with
  | nil =>
    intro handles
    refine ⟨?_, ?_, ?_⟩ <;> simp [drainDisposes]
  | cons path rest ih =>
    intro handles
    cases hfind : handles.findIdx? (fun i => i.1 = path) with
    | none =>
      obtain ⟨ih1, ih2, ih3⟩ := ih handles
      refine ⟨?_, ?_, ?_⟩
      · intro ev hev
        exact ih1 ev (by simpa [drainDisposes, hfind] using hev)
      · simp only [drainDisposes, hfind]
        exact ih2.cons path
      · intro q
        simp only [drainDisposes, hfind]
        exact ih3 q
    | some index =>
      obtain ⟨entry, hget, hpath, hmem, hsub, hcount⟩ :=
        findIdx_entry_spec path handles index hfind
      obtain ⟨ih1, ih2, ih3⟩ := ih (handles.eraseIdx index)
      have hevent : ({ path := path, handle := (handles.get! index).2 } :
          SpineTextureDisposeEvent) = { path := entry.1, handle := entry.2 } := by
        rw [hget, hpath]
      refine ⟨?_, ?_, ?_⟩
      · intro ev hev
        simp only [drainDisposes, hfind, List.mem_cons] at hev
        rcases hev with rfl | hev
        · have hpair2 : (path, (handles.get! index).2) = entry := by
            rw [hget, ← hpath]
          rw [show ((({ path := path, handle := (handles.get! index).2 } :
              SpineTextureDisposeEvent)).path,
            (({ path := path, handle := (handles.get! index).2 } :
              SpineTextureDisposeEvent)).handle) = entry from hpair2]
          exact hmem
        · exact hsub.subset (ih1 ev hev)
      · simp only [drainDisposes, hfind, List.map_cons]
        exact ih2.cons₂ path
      · intro q
        have hc1 := ih3 q
        have hc2 := hcount q
        simp only [drainDisposes, hfind, hevent, List.filter_cons,
          Prod.mk.eta]
        by_cases hq : q entry = true
        · rw [if_pos hq] at hc2
          rw [if_pos hq]
          simp only [List.length_cons]
          omega
        · rw [if_neg hq] at hc2
          rw [if_neg hq]
          omega

/-- Closed form of the create drain: the live table gains exactly one
(path, handle) entry per emitted create event, in emission order, and the
events are exactly the drained pending records that have a matching
atlas. -/
theorem drainCreates_eq (env : TexEnv) :
    ∀ (pending : List SpineTextureInternal)
      (handles : List (String × Handle)),
      drainCreates env pending handles =
        (handles ++ (pending.filterMap fun texture =>
            (find_matching_atlas env.atlases texture.atlas_address).map
              fun _ => (texture.path, env.load texture.path)),
          pending.filterMap fun texture =>
            (find_matching_atlas env.atlases texture.atlas_address).map
              fun atlas =>
                { path := texture.path, handle := env.load texture.path,
                  atlas := atlas, config := texture.config })
  | [], handles => by simp [drainCreates]
  | texture :: rest, handles => by
    cases hfind : find_matching_atlas env.atlases texture.atlas_address with
    | none =>
      simp [drainCreates, hfind, drainCreates_eq env rest handles,
        List.filterMap_cons]
    | some atlas =>
      simp only [drainCreates, hfind,
        drainCreates_eq env rest
          (handles ++ [(texture.path, env.load texture.path)]),
        List.filterMap_cons, Option.map_some']
      simp [List.append_assoc]

/-- The (path, handle) projection of the create events equals the pair
list appended to the live table. -/
theorem createEvents_pairs (env : TexEnv)
    (pending : List SpineTextureInternal) :
    ((pending.filterMap fun texture =>
        (find_matching_atlas env.atlases texture.atlas_address).map
          fun atlas =>
            ({ path := texture.path, handle := env.load texture.path,
               atlas := atlas, config := texture.config } :
              SpineTextureCreateEvent)).map
        fun c => (c.path, c.handle)) =
      pending.filterMap fun texture =>
        (find_matching_atlas env.atlases texture.atlas_address).map
          fun _ => (texture.path, env.load texture.path) := by
  rw [List.map_filterMap]
  refine List.filterMap_congr ?_
  intro texture _
  cases find_matching_atlas env.atlases texture.atlas_address <;> simp

/-- C7: A dispose event is emitted only for a path with a matching entry
in the live (path, handle) table; the table gains entries only through
create events for the same path; each emitted dispose carries the matched
entry's handle and removes that entry (unmatched pending-dispose paths are
silently dropped), so after the drain the live table holds exactly one
entry per create not yet disposed. -/
theorem C7_bridge_live_table (env : TexEnv) (data : SpineTexturesData) :
    ((drainCreates env data.remember.reverse data.handles).1 =
      data.handles ++
        ((SpineTextures.update env data).2.1.map fun c => (c.path, c.handle))) ∧
    (∀ ev ∈ (SpineTextures.update env data).2.2,
      (ev.path, ev.handle) ∈
        data.handles ++
          ((SpineTextures.update env data).2.1.map
            fun c => (c.path, c.handle))) ∧
    (∀ (q : String × Handle → Bool),
      List.countP q (SpineTextures.update env data).1.handles +
          (((SpineTextures.update env data).2.2).filter
            (fun ev => q (ev.path, ev.handle))).length =
        List.countP q
          (data.handles ++
            ((SpineTextures.update env data).2.1.map
              fun c => (c.path, c.handle)))) := by
  have hc := drainCreates_eq env data.remember.reverse data.handles
  have hpairs := createEvents_pairs env data.remember.reverse
  have hhandles :
      (drainCreates env data.remember.reverse data.handles).1 =
        data.handles ++
          ((SpineTextures.update env data).2.1.map
            fun c => (c.path, c.handle)) := by
    show _ = data.handles ++
      ((drainCreates env data.remember.reverse data.handles).2.map
        fun c => (c.path, c.handle))
    rw [hc]
    rw [hpairs]
  obtain ⟨hd1, _, hd3⟩ :=
    drainDisposes_spec data.forget.reverse
      (drainCreates env data.remember.reverse data.handles).1
  refine ⟨hhandles, ?_, ?_⟩
  · intro ev hev
    rw [← hhandles]
    exact hd1 ev hev
  · intro q
    rw [← hhandles]
    exact hd3 q

/-- C10: The bridge drains its pending lists by popping from the end of
each vector: the create events (and the live-table insertions, in the same
order) correspond to the reversed pending-create list filtered by atlas
match, and the dispose events follow the reversed pending-dispose order —
last recorded, first emitted. -/
theorem C10_bridge_drain_lifo (env : TexEnv) (data : SpineTexturesData) :
    ((SpineTextures.update env data).2.1 =
      data.remember.reverse.filterMap fun texture =>
        (find_matching_atlas env.atlases texture.atlas_address).map
          fun atlas =>
            { path := texture.path, handle := env.load texture.path,
              atlas := atlas, config := texture.config }) ∧
    ((drainCreates env data.remember.reverse data.handles).1 =
      data.handles ++
        (data.remember.reverse.filterMap fun texture =>
          (find_matching_atlas env.atlases texture.atlas_address).map
            fun _ => (texture.path, env.load texture.path))) ∧
    List.Sublist
      (((SpineTextures.update env data).2.2).map
        SpineTextureDisposeEvent.path)
      data.forget.reverse := by
  have hc := drainCreates_eq env data.remember.reverse data.handles
  refine ⟨?_, ?_, ?_⟩
  · show (drainCreates env data.remember.reverse data.handles).2 = _
    rw [hc]
  · rw [hc]
  · exact (drainDisposes_spec data.forget.reverse
      (drainCreates env data.remember.reverse data.handles).1).2.1

theorem C7_witness :
    (⟨"a", 7⟩ : SpineTextureDisposeEvent) ∈
      (SpineTextures.update texEnvW texDataW).2.2 ∧
    ("a", 7) ∈
      texDataW.handles ++
        ((SpineTextures.update texEnvW texDataW).2.1.map
          fun c => (c.path, c.handle)) ∧
    (List.countP (fun e => e.1 = "a")
        (SpineTextures.update texEnvW texDataW).1.handles +
      (((SpineTextures.update texEnvW texDataW).2.2).filter
        (fun ev => ev.path = "a")).length =
      List.countP (fun e => e.1 = "a")
        (texDataW.handles ++
          ((SpineTextures.update texEnvW texDataW).2.1.map
            fun c => (c.path, c.handle)))) := by
  have hmem : (⟨"a", 7⟩ : SpineTextureDisposeEvent) ∈
      (SpineTextures.update texEnvW texDataW).2.2 := by decide
  refine ⟨hmem, (C7_bridge_live_table texEnvW texDataW).2.1 _ hmem, ?_⟩
  have := (C7_bridge_live_table texEnvW texDataW).2.2
    (fun e => e.1 = "a")
  simpa using this

/-! ## Mesh builder lemmas -/

/-- A fetched renderable inherits the external runtime's consistency: the
UV, color and dark-color streams have one entry per vertex (the Separated
arm broadcasts the single color), and the indices are in range. -/
theorem fetchRenderable_consistent (renderables : SkeletonRenderableKind)
    (renderable_index : Nat) (r : RenderData)
    (hcons : RenderablesConsistent renderables)
    (hfetch : fetchRenderable renderables renderable_index = some r) :
    r.uvs.length = r.vertices.length ∧
    r.colors.length = r.vertices.length ∧
    r.dark_colors.length = r.vertices.length ∧
    ∀ i ∈ r.indices, i < r.vertices.length ∧ i < 65536 := by
  cases renderables with
  | simple renderables =>
    simp only [fetchRenderable, Option.map_eq_some'] at hfetch
    obtain ⟨orig, hget, rfl⟩ := hfetch
    obtain ⟨h1, h2⟩ := hcons orig (List.get?_mem hget)
    exact ⟨h1, by simp, by simp, h2⟩
  | combined renderables =>
    simp only [fetchRenderable, Option.map_eq_some'] at hfetch
    obtain ⟨orig, hget, rfl⟩ := hfetch
    obtain ⟨h1, h2, h3, h4⟩ := hcons orig (List.get?_mem hget)
    exact ⟨h1, h2, h3, h4⟩

/-- In Separated mode a fetched renderable's color and dark-color streams
are the single renderable color broadcast to one entry per vertex. -/
theorem fetchRenderable_simple_broadcast
    (renderables : List SkeletonRenderable) (renderable_index : Nat)
    (r : RenderData)
    (hfetch : fetchRenderable (.simple renderables) renderable_index = some r) :
    ∃ orig ∈ renderables,
      r.colors = List.replicate r.vertices.length
        [orig.color.r, orig.color.g, orig.color.b, orig.color.a] ∧
      r.dark_colors = List.replicate r.vertices.length
        [orig.dark_color.r, orig.dark_color.g, orig.dark_color.b,
          orig.dark_color.a] := by
  simp only [fetchRenderable, Option.map_eq_some'] at hfetch
  obtain ⟨orig, hget, rfl⟩ := hfetch
  exact ⟨orig, List.get?_mem hget, by simp, by simp⟩

/-- A renderable index below the renderable count fetches some
renderable, with the original's renderer object. -/
theorem fetchRenderable_lt (renderables : SkeletonRenderableKind)
    (renderable_index : Nat)
    (hlt : renderable_index < renderables.size) :
    ∃ r, fetchRenderable renderables renderable_index = some r ∧
      (RenderablesHaveTexture renderables →
        r.attachment_renderer_object.isSome = true) := by
  cases renderables with
  | simple renderables =>
    have hlt2 : renderable_index < renderables.length := by
      simpa [SkeletonRenderableKind.size] using hlt
    have hget : renderables.get? renderable_index =
        some (renderables.get ⟨renderable_index, hlt2⟩) := List.get?_eq_get hlt2
    cases hfetch : fetchRenderable (.simple renderables) renderable_index with
    | none => exact absurd hfetch (by simp [fetchRenderable, hget]; exact hlt2)
    | some r =>
      refine ⟨r, rfl, ?_⟩
      intro htex
      simp only [fetchRenderable, hget, Option.map_some',
        Option.some.injEq] at hfetch
      rw [← hfetch]
      exact htex _ (List.get?_mem hget)
  | combined renderables =>
    have hlt2 : renderable_index < renderables.length := by
      simpa [SkeletonRenderableKind.size] using hlt
    have hget : renderables.get? renderable_index =
        some (renderables.get ⟨renderable_index, hlt2⟩) := List.get?_eq_get hlt2
    cases hfetch : fetchRenderable (.combined renderables) renderable_index with
    | none => exact absurd hfetch (by simp [fetchRenderable, hget]; exact hlt2)
    | some r =>
      refine ⟨r, rfl, ?_⟩
      intro htex
      simp only [fetchRenderable, hget, Option.map_some',
        Option.some.injEq] at hfetch
      rw [← hfetch]
      exact htex _ (List.get?_mem hget)

/-- C4: A mesh child for which there is no next renderable, or whose
renderable lacks a backing texture object, has its state set to Empty and
every attribute stream of its engine mesh reset to zero length: index
buffer removed, positions, normals, UVs, colors and dark colors each the
empty list. -/
theorem C4_empty_renderable_zero_mesh (mesh_type : SpineMeshType)
    (renderables : SkeletonRenderableKind) (renderable_index : Nat) (z : ℚ)
    (child : SpineMeshChild) (mesh : Mesh)
    (hmesh : child.mesh = some mesh)
    (hcase : fetchRenderable renderables renderable_index = none ∨
      ∃ r, fetchRenderable renderables renderable_index = some r ∧
        r.attachment_renderer_object = none) :
    (update_mesh_child mesh_type renderables renderable_index z
        child).1.state = .empty ∧
    (update_mesh_child mesh_type renderables renderable_index z
        child).1.mesh =
      some { indices := none, positions := [], normals := [], uvs := [],
             colors := [], dark_colors := [] } := by
  rcases hcase with hfetch | ⟨r, hfetch, haro⟩
  · simp [update_mesh_child, hmesh, hfetch, empty_mesh]
  · simp [update_mesh_child, hmesh, hfetch, haro, empty_mesh]

theorem C4_witness :
    (update_mesh_child SpineMeshType.mesh2D (.simple []) 0 0
        (childW 0)).1.state = .empty ∧
    (update_mesh_child SpineMeshType.mesh2D (.simple []) 0 0
        (childW 0)).1.mesh =
      some { indices := none, positions := [], normals := [], uvs := [],
             colors := [], dark_colors := [] } :=
  C4_empty_renderable_zero_mesh SpineMeshType.mesh2D (.simple []) 0 0
    (childW 0) meshW rfl (Or.inl rfl)

/-- Per-child success branch: when the updated child's state is Renderable
and its mesh resolved, the mesh just written has all six streams coherent;
in Separated mode its color and dark-color streams are the broadcast
single colors of the consumed renderable. -/
theorem update_mesh_child_renderable (mesh_type : SpineMeshType)
    (renderables : SkeletonRenderableKind) (renderable_index : Nat) (z : ℚ)
    (child : SpineMeshChild)
    (hcons : RenderablesConsistent renderables) :
    ∀ info m',
      (update_mesh_child mesh_type renderables renderable_index z
        child).1.state = .renderable info →
      (update_mesh_child mesh_type renderables renderable_index z
        child).1.mesh = some m' →
      child.mesh ≠ none →
      MeshCoherent m' ∧
        ∀ simples, renderables = .simple simples →
          ∃ orig ∈ simples,
            m'.colors = List.replicate m'.positions.length
              [orig.color.r, orig.color.g, orig.color.b, orig.color.a] ∧
            m'.dark_colors = List.replicate m'.positions.length
              [orig.dark_color.r, orig.dark_color.g, orig.dark_color.b,
                orig.dark_color.a] := by
  intro info m' hstate hmesh' _
  cases hmesh : child.mesh with
  | none =>
    rw [show (update_mesh_child mesh_type renderables renderable_index z
      child).1.mesh = child.mesh by simp [update_mesh_child, hmesh],
      hmesh] at hmesh'
    exact absurd hmesh' (by simp)
  | some mesh =>
    cases hfetch : fetchRenderable renderables renderable_index with
    | none =>
      rw [show (update_mesh_child mesh_type renderables renderable_index z
        child).1.state = .empty by simp [update_mesh_child, hmesh, hfetch]]
        at hstate
      exact absurd hstate (by simp)
    | some r =>
      cases haro : r.attachment_renderer_object with
      | none =>
        rw [show (update_mesh_child mesh_type renderables renderable_index z
          child).1.state = .empty by
            simp [update_mesh_child, hmesh, hfetch, haro]] at hstate
        exact absurd hstate (by simp)
      | some texture_path =>
        have hm : (update_mesh_child mesh_type renderables renderable_index z
            child).1.mesh =
            some { indices := some r.indices, positions := r.vertices,
                   normals := List.replicate r.vertices.length [0, 0, 0],
                   uvs := r.uvs, colors := r.colors,
                   dark_colors := r.dark_colors } := by
          simp [update_mesh_child, hmesh, hfetch, haro]
        rw [hm] at hmesh'
        injection hmesh' with hmesh'
        subst hmesh'
        obtain ⟨h1, h2, h3, h4⟩ :=
          fetchRenderable_consistent renderables renderable_index r hcons hfetch
        refine ⟨⟨rfl, h1, h2, h3, r.indices, rfl, h4⟩, ?_⟩
        rintro simples rfl
        obtain ⟨orig, hmem, hcol, hdark⟩ :=
          fetchRenderable_simple_broadcast simples renderable_index r hfetch
        exact ⟨orig, hmem, hcol, hdark⟩

/-- Pass-level version of `update_mesh_child_renderable` over the whole
child loop. -/
theorem update_mesh_children_renderable (mesh_type : SpineMeshType)
    (renderables : SkeletonRenderableKind)
    (hcons : RenderablesConsistent renderables) :
    ∀ (children : List SpineMeshChild) (renderable_index : Nat) (z : ℚ),
      ∀ c' ∈ update_mesh_children mesh_type renderables children
          renderable_index z,
        ∀ info m', c'.state = .renderable info → c'.mesh = some m' →
          MeshCoherent m' ∧
            ∀ simples, renderables = .simple simples →
              ∃ orig ∈ simples,
                m'.colors = List.replicate m'.positions.length
                  [orig.color.r, orig.color.g, orig.color.b, orig.color.a] ∧
                m'.dark_colors = List.replicate m'.positions.length
                  [orig.dark_color.r, orig.dark_color.g, orig.dark_color.b,
                    orig.dark_color.a]
  | [], _, _ => by simp [update_mesh_children]
  | child :: rest, renderable_index, z => by
    intro c' hc' info m' hstate hmesh'
    simp only [update_mesh_children, List.mem_cons] at hc'
    rcases hc' with rfl | hc'
    · cases hmesh : child.mesh with
      | none =>
        rw [show (update_mesh_child mesh_type renderables renderable_index z
          child).1.mesh = child.mesh by simp [update_mesh_child, hmesh],
          hmesh] at hmesh'
        exact absurd hmesh' (by simp)
      | some mesh =>
        exact update_mesh_child_renderable mesh_type renderables
          renderable_index z child hcons info m' hstate hmesh'
          (by rw [hmesh]; exact Option.noConfusion)
    · exact update_mesh_children_renderable mesh_type renderables hcons rest
        _ _ c' hc' info m' hstate hmesh'

/-- C2: Whenever the mesh builder sets a mesh's state to Renderable, all
six attribute streams are written coherently in the same pass: the normal
stream is one zeroed [0,0,0] entry per position, the UV, color and
dark-color streams have one entry per position (in Separated mode the
single renderable color and dark color are broadcast `vertices.len()`
times), and the index buffer's 16-bit values are in range of the vertex
count — assuming the external runtime's renderables are consistent. -/
theorem C2_renderable_mesh_streams (mesh_type : SpineMeshType)
    (drawer : SpineDrawer) (simple_renderables : List SkeletonRenderable)
    (combined_renderables : List SkeletonCombinedRenderable)
    (children : List SpineMeshChild)
    (hdrawer : drawer ≠ SpineDrawer.none)
    (hs : ∀ r ∈ simple_renderables, SimpleConsistent r)
    (hc : ∀ r ∈ combined_renderables, CombinedConsistent r) :
    ∀ c' ∈ spine_update_meshes mesh_type drawer simple_renderables
        combined_renderables children,
      ∀ info m', c'.state = .renderable info → c'.mesh = some m' →
        MeshCoherent m' ∧
          (drawer = SpineDrawer.separated →
            ∃ orig ∈ simple_renderables,
              m'.colors = List.replicate m'.positions.length
                [orig.color.r, orig.color.g, orig.color.b, orig.color.a] ∧
              m'.dark_colors = List.replicate m'.positions.length
                [orig.dark_color.r, orig.dark_color.g, orig.dark_color.b,
                  orig.dark_color.a]) := by
  intro c' hc' info m' hstate hmesh'
  cases drawer with
  | none => exact absurd rfl hdrawer
  | separated =>
    have h := update_mesh_children_renderable mesh_type
      (.simple simple_renderables) hs children 0 0 c'
      (by simpa [spine_update_meshes] using hc') info m' hstate hmesh'
    exact ⟨h.1, fun _ => h.2 simple_renderables rfl⟩
  | combined =>
    have h := update_mesh_children_renderable mesh_type
      (.combined combined_renderables) hc children 0 0 c'
      (by simpa [spine_update_meshes] using hc') info m' hstate hmesh'
    exact ⟨h.1, fun hsep => by cases hsep⟩

theorem C2_witness :
    MeshCoherent
      { indices := some [0, 1, 2],
        positions := [[0, 0], [1, 0], [0, 1]],
        normals := [[0, 0, 0], [0, 0, 0], [0, 0, 0]],
        uvs := [[0, 0], [1, 0], [0, 1]],
        colors := [[1, 1, 1, 1], [1, 1, 1, 1], [1, 1, 1, 1]],
        dark_colors := [[1, 1, 1, 1], [1, 1, 1, 1], [1, 1, 1, 1]] } :=
  (C2_renderable_mesh_streams SpineMeshType.mesh2D SpineDrawer.separated
    [renderableTex] [] [childW 0] (by decide)
    (by intro r hr; rcases List.mem_singleton.mp hr with rfl
        exact ⟨rfl, by decide⟩)
    (by intro r hr; exact absurd hr (List.not_mem_nil r))
    { mesh := some
        { indices := some [0, 1, 2],
          positions := [[0, 0], [1, 0], [0, 1]],
          normals := [[0, 0, 0], [0, 0, 0], [0, 0, 0]],
          uvs := [[0, 0], [1, 0], [0, 1]],
          colors := [[1, 1, 1, 1], [1, 1, 1, 1], [1, 1, 1, 1]],
          dark_colors := [[1, 1, 1, 1], [1, 1, 1, 1], [1, 1, 1, 1]] },
      state := .renderable
        { slot_index := some 1, texture := 9, blend_mode := .normal,
          premultiplied_alpha := false },
      z := 0, mesh2d := true, mesh3d := false }
    (by decide)
    { slot_index := some 1, texture := 9, blend_mode := .normal,
      premultiplied_alpha := false }
    { indices := some [0, 1, 2],
      positions := [[0, 0], [1, 0], [0, 1]],
      normals := [[0, 0, 0], [0, 0, 0], [0, 0, 0]],
      uvs := [[0, 0], [1, 0], [0, 1]],
      colors := [[1, 1, 1, 1], [1, 1, 1, 1], [1, 1, 1, 1]],
      dark_colors := [[1, 1, 1, 1], [1, 1, 1, 1], [1, 1, 1, 1]] }
    rfl rfl).1

/-- Success branch of the per-child update: the rendered child keeps the
incoming layer `z`, its state becomes Renderable, and the cursor and layer
advance by one renderable and 0.001. -/
theorem update_mesh_child_success (mesh_type : SpineMeshType)
    (renderables : SkeletonRenderableKind) (renderable_index : Nat) (z : ℚ)
    (child : SpineMeshChild) (mesh : Mesh) (r : RenderData)
    (texture_path : Nat) (hcm : child.mesh = some mesh)
    (hfetch : fetchRenderable renderables renderable_index = some r)
    (haro : r.attachment_renderer_object = some texture_path) :
    (update_mesh_child mesh_type renderables renderable_index z child).1.z
        = z ∧
    (update_mesh_child mesh_type renderables renderable_index z
        child).1.state.isRenderable = true ∧
    (update_mesh_child mesh_type renderables renderable_index z child).2.1
        = renderable_index + 1 ∧
    (update_mesh_child mesh_type renderables renderable_index z child).2.2
        = z + 1/1000 := by
  simp [update_mesh_child, hcm, hfetch, haro, SpineMeshState.isRenderable]

/-- Layering lemma: with every mesh asset resolving and every renderable
textured, the k-th child (while renderables remain) ends Renderable at
layer `z + k · 0.001`. -/
theorem update_mesh_children_z (mesh_type : SpineMeshType)
    (renderables : SkeletonRenderableKind)
    (htex : RenderablesHaveTexture renderables) :
    ∀ (children : List SpineMeshChild) (renderable_index : Nat) (z : ℚ),
      (∀ c ∈ children, c.mesh.isSome = true) →
      ∀ k, k < children.length → renderable_index + k < renderables.size →
        ∃ c', (update_mesh_children mesh_type renderables children
            renderable_index z).get? k = some c' ∧
          c'.z = z + (k : ℚ) * (1/1000) ∧ c'.state.isRenderable = true
  | [], _, _ => by
    intro _ k hk
    exact absurd hk (by simp)
  | child :: rest, renderable_index, z => by
    intro hmesh k hk hk2
    obtain ⟨r, hfetch, hr⟩ := fetchRenderable_lt renderables renderable_index
      (by omega)
    obtain ⟨mesh, hcm⟩ := Option.isSome_iff_exists.mp
      (hmesh child (List.mem_cons_self _ _))
    obtain ⟨texture_path, haro⟩ := Option.isSome_iff_exists.mp (hr htex)
    obtain ⟨hz, hs, hri, hz'⟩ := update_mesh_child_success mesh_type
      renderables renderable_index z child mesh r texture_path hcm hfetch haro
    cases k with
    | zero =>
      refine ⟨(update_mesh_child mesh_type renderables renderable_index z
        child).1, ?_, ?_, hs⟩
      · simp [update_mesh_children]
      · rw [hz]
        push_cast
        ring
    | succ k =>
      obtain ⟨c', hget, hcz, hcs⟩ := update_mesh_children_z mesh_type
        renderables htex rest (renderable_index + 1) (z + 1/1000)
        (fun c hc => hmesh c (List.mem_cons_of_mem _ hc)) k
        (by simpa using hk) (by omega)
      refine ⟨c', ?_, ?_, hcs⟩
      · rw [show (update_mesh_children mesh_type renderables
          (child :: rest) renderable_index z) =
            (update_mesh_child mesh_type renderables renderable_index z
              child).1 ::
              update_mesh_children mesh_type renderables rest
                (update_mesh_child mesh_type renderables renderable_index z
                  child).2.1
                (update_mesh_child mesh_type renderables renderable_index z
                  child).2.2 from rfl, hri, hz']
        simpa using hget
      · rw [hcz]
        push_cast
        ring

/-- C3 (amended): when every consumed renderable carries a backing texture
and every mesh child's mesh asset resolves, the mesh consuming the k-th
renderable is assigned local z = 0.001 · k, strictly monotonically
increasing with draw order in steps of 0.001 across the skeleton's mesh
children. -/
theorem C3_z_layering (mesh_type : SpineMeshType) (drawer : SpineDrawer)
    (simple_renderables : List SkeletonRenderable)
    (combined_renderables : List SkeletonCombinedRenderable)
    (children : List SpineMeshChild)
    (renderables : SkeletonRenderableKind)
    (hdrawer : (drawer = SpineDrawer.separated ∧
        renderables = .simple simple_renderables) ∨
      (drawer = SpineDrawer.combined ∧
        renderables = .combined combined_renderables))
    (hmesh : ∀ c ∈ children, c.mesh.isSome = true)
    (htex : RenderablesHaveTexture renderables)
    (k : Nat) (hk : k < children.length) (hk2 : k < renderables.size) :
    ∃ c', (spine_update_meshes mesh_type drawer simple_renderables
        combined_renderables children).get? k = some c' ∧
      c'.z = (k : ℚ) * (1/1000) ∧ c'.state.isRenderable = true ∧
      ∀ j, j < k →
        ∃ c'', (spine_update_meshes mesh_type drawer simple_renderables
            combined_renderables children).get? j = some c'' ∧
          c''.z < c'.z := by
  have main : ∀ i, i < children.length → i < renderables.size →
      ∃ c', (spine_update_meshes mesh_type drawer simple_renderables
          combined_renderables children).get? i = some c' ∧
        c'.z = (i : ℚ) * (1/1000) ∧ c'.state.isRenderable = true := by
    intro i h1 h2
    obtain ⟨c', hget, hz, hs⟩ := update_mesh_children_z mesh_type renderables
      htex children 0 0 hmesh i h1 (by omega)
    rcases hdrawer with ⟨rfl, rfl⟩ | ⟨rfl, rfl⟩ <;>
      exact ⟨c', by simpa [spine_update_meshes] using hget, by
        rw [hz]; ring, hs⟩
  obtain ⟨c', hget, hz, hs⟩ := main k hk hk2
  refine ⟨c', hget, hz, hs, ?_⟩
  intro j hj
  obtain ⟨c'', hget', hz', _⟩ := main j (by omega) (by omega)
  refine ⟨c'', hget', ?_⟩
  rw [hz, hz']
  have hcast : (j : ℚ) < (k : ℚ) := by exact_mod_cast hj
  have : (0 : ℚ) < 1/1000 := by norm_num
  exact mul_lt_mul_of_pos_right hcast this

/-- C3 fails as stated when a renderable lacks a backing texture: with two
Separated renderables of which the first is textureless, the mesh
consuming renderable k = 1 ends Renderable at z = 0, not 0.001 · 1, and
the two children's z values (0, 0) are not strictly increasing. -/
theorem C3_counterexample :
    ((spine_update_meshes SpineMeshType.mesh2D SpineDrawer.separated
        [renderableNoTex, renderableTex] [] [childW 0, childW (1/1000)]).map
      (fun c => (c.z, c.state.isRenderable))) = [(0, false), (0, true)] ∧
    (0 : ℚ) ≠ (1 : ℚ) * (1/1000) := by
  refine ⟨by decide, by norm_num⟩

theorem C3_witness :
    ∃ c', (spine_update_meshes SpineMeshType.mesh2D SpineDrawer.separated
        [renderableTex, renderableTex] [] [childW 0, childW 0]).get? 1 =
        some c' ∧
      c'.z = ((1 : Nat) : ℚ) * (1/1000) ∧ c'.state.isRenderable = true ∧
      ∀ j, j < 1 →
        ∃ c'', (spine_update_meshes SpineMeshType.mesh2D
            SpineDrawer.separated [renderableTex, renderableTex] []
            [childW 0, childW 0]).get? j = some c'' ∧
          c''.z < c'.z :=
  C3_z_layering SpineMeshType.mesh2D SpineDrawer.separated
    [renderableTex, renderableTex] [] [childW 0, childW 0]
    (.simple [renderableTex, renderableTex]) (Or.inl ⟨rfl, rfl⟩)
    (by intro c hc
        rcases List.mem_cons.mp hc with rfl | hc
        · rfl
        · rcases List.mem_singleton.mp hc with rfl
          rfl)
    (by intro r hr
        rcases List.mem_cons.mp hr with rfl | hr
        · rfl
        · rcases List.mem_singleton.mp hr with rfl
          rfl)
    1 (by decide) (by decide)

end BevySpine
